import Mathlib

/-!
Verification development for the Daraz review scraper (`daraz.py`).

The scraper's pure extraction logic is shallowly embedded here.  Selenium
calls are modelled by explicit inputs: a node that `find_element` fails to
locate is an `Option.none`, a list returned by `find_elements` is a Lean
list, text and attribute values are strings, and exceptions raised by the
driver are explicit flags or `Except` results.  Python string routines used
by the code (`str.strip`, substring tests, `urllib.parse.urljoin`) are
translated from their CPython behaviour; Unicode-only refinements (Unicode
digit classes in `\d`, Unicode whitespace beyond ASCII, non-ASCII netloc
normalisation checks in `urllib`) are outside the modelled domain, and the
URL parser returns `none` on the inputs where CPython would raise or where
the model abstains (bracketed IPv6 hosts, non-ASCII authorities).
-/

namespace Daraz

/-! ## Python string primitives -/

/-- Whitespace characters stripped by Python `str.strip()` (ASCII fragment). -/
def pyWhitespace (c : Char) : Bool :=
  c = ' ' || c = '\t' || c = '\n' || c = '\r' || c = '\x0b' || c = '\x0c'

/-- List-level `str.strip()`. -/
def pyStripL (l : List Char) : List Char :=
  ((l.dropWhile pyWhitespace).reverse.dropWhile pyWhitespace).reverse

/-- Python `str.strip()` on strings. -/
def pyStrip (s : String) : String :=
  ⟨pyStripL s.data⟩

/-- Tests whether the second list is a leading segment of the first. -/
def listStartsWithL : List Char → List Char → Bool
  | _, [] => true
  | [], _ :: _ => false
  | a :: as, b :: bs => a = b && listStartsWithL as bs

/-- Python substring test `needle in hay`. -/
def listContainsL : List Char → List Char → Bool
  | hay, needle =>
    if listStartsWithL hay needle then true
    else
      match hay with
      | [] => false
      | _ :: t => listContainsL t needle

/-- String wrapper for the substring test. -/
def strContains (hay needle : String) : Bool :=
  listContainsL hay.data needle.data

/-- Numeric value of an ASCII digit. -/
def digitVal (c : Char) : Nat := c.toNat - ('0').toNat

/-- Decimal value of a digit list. -/
def natOfDigits (l : List Char) : Nat :=
  l.foldl (fun acc c => acc * 10 + digitVal c) 0

/-- Translation of `_int_from_text`: `re.search(r"(\d[\d,]*)", text)` finds the
first digit, takes the maximal following run of digits and commas, removes the
commas and parses the digits (ASCII digits model `\d`). -/
def intFromTextL : List Char → Option Nat
  | [] => none
  | c :: rest =>
    if c.isDigit then
      some (natOfDigits ((c :: rest.takeWhile (fun d => d.isDigit || d = ',')).filter
        (fun d => ¬ d = ',')))
    else intFromTextL rest

/-- Source `_int_from_text` on strings. -/
def _int_from_text (s : String) : Option Nat :=
  intFromTextL s.data

/-- Source `_price_to_number`: keep digits and dots, then Python `float(...)`,
which fails on an empty string, a lone dot or more than one dot.  The IEEE
value is modelled by `Float.ofScientific`. -/
def _price_to_number (s : String) : Option Float :=
  let cleaned := s.data.filter (fun c => c.isDigit || c = '.')
  if cleaned = [] then none
  else if 2 ≤ (cleaned.filter (fun c => c = '.')).length then none
  else if cleaned = ['.'] then none
  else
    let intPart := cleaned.takeWhile (fun c => ¬ c = '.')
    let fracPart := (cleaned.dropWhile (fun c => ¬ c = '.')).drop 1
    some (Float.ofScientific (natOfDigits (intPart ++ fracPart)) true fracPart.length)

/-- Source `_get_attr`: the attribute value stripped, or the empty string when
the attribute is absent, empty, or the driver call fails. -/
def get_attr (v : Option String) : String :=
  match v with
  | some s => if s = "" then "" else pyStrip s
  | none => ""

/-- Source `_text_or_empty` applied to an optional node: the node text
stripped, or the empty string when the node is absent or the read fails. -/
def textOrEmpty (v : Option String) : String :=
  match v with
  | some s => pyStrip s
  | none => ""

/-! ## URL machinery

`normalize_url` is from the source; the remaining definitions translate the
CPython `urllib.parse` functions (`urlsplit`, `urlparse`, `urlunsplit`,
`urlunparse`, `urljoin`) that `extract_listing_cards` invokes through
`urljoin("https://www.daraz.com.bd/", ...)`. -/

/-- Source `normalize_url` at list level: empty stays empty, a
protocol-relative `//...` gets the `https:` scheme, anything else is
unchanged. -/
def normalizeUrlL (href : List Char) : List Char :=
  if href = [] then []
  else if href.take 2 = ['/', '/'] then "https:".data ++ href
  else href

/-- Source `normalize_url` on strings. -/
def normalize_url (href : String) : String :=
  ⟨normalizeUrlL href.data⟩

/-- Characters allowed in a URL scheme (`urllib.parse.scheme_chars`). -/
def scheme_chars : List Char :=
  "abcdefghijklmnopqrstuvwxyzABCDEFGHIJKLMNOPQRSTUVWXYZ0123456789+-.".data

/-- The `uses_relative` scheme list of `urllib.parse` (CPython 3.11). -/
def uses_relativeL : List (List Char) :=
  ["", "ftp", "http", "gopher", "nntp", "imap", "wais", "file", "https",
   "shttp", "mms", "prospero", "rtsp", "rtsps", "rtspu", "sftp", "svn",
   "svn+ssh", "ws", "wss"].map String.data

/-- The `uses_netloc` scheme list of `urllib.parse` (CPython 3.11). -/
def uses_netlocL : List (List Char) :=
  ["", "ftp", "http", "gopher", "nntp", "telnet", "imap", "wais", "file",
   "mms", "https", "shttp", "snews", "prospero", "rtsp", "rtsps", "rtspu",
   "rsync", "svn", "svn+ssh", "sftp", "nfs", "git", "git+ssh", "ws",
   "wss"].map String.data

/-- Input cleaning done by `urlsplit`: strip leading C0-control-or-space
characters, then delete every tab, carriage return and line feed. -/
def cleanUrl (l : List Char) : List Char :=
  (l.dropWhile (fun c => c.toNat ≤ 32)).filter
    (fun c => ¬ (c = '\t' || c = '\r' || c = '\n'))

/-- Scheme recognition loop of `urlsplit`: chars before the first colon must
all be scheme characters, otherwise there is no scheme split. -/
def schemeSplitGo : List Char → List Char → Option (List Char × List Char)
  | [], _ => none
  | c :: rest, acc =>
    if c = ':' then
      if acc = [] then none else some (acc.reverse, rest)
    else if c ∈ scheme_chars then schemeSplitGo rest (c :: acc)
    else none

/-- Scheme split of `urlsplit`: requires an ASCII-alphabetic first character
and yields the lowercased scheme and the remainder after the colon. -/
def schemeSplitL (l : List Char) : Option (List Char × List Char) :=
  match l.head? with
  | some c =>
    if c.toNat < 128 ∧ c.isAlpha then
      (schemeSplitGo l []).map (fun p => (p.1.map Char.toLower, p.2))
    else none
  | none => none

/-- Netloc delimiter characters of `_splitnetloc`. -/
def netlocDelim (c : Char) : Bool :=
  c = '/' || c = '?' || c = '#'

/-- Translation of `_splitnetloc`: the authority runs until the first of
`/`, `?`, `#`. -/
def splitNetlocL (l : List Char) : List Char × List Char :=
  (l.takeWhile (fun c => ¬ netlocDelim c), l.dropWhile (fun c => ¬ netlocDelim c))

/-- Splits a list at the first occurrence of a separator, if any;
models Python `str.split(sep, 1)` guarded by `sep in s`. -/
def splitFirstL (sep : Char) : List Char → Option (List Char × List Char)
  | [] => none
  | c :: rest =>
    if c = sep then some ([], rest)
    else (splitFirstL sep rest).map (fun p => (c :: p.1, p.2))

/-- Result record of `urlsplit`. -/
structure USplit where
  scheme : List Char
  netloc : List Char
  path : List Char
  query : List Char
  fragment : List Char
deriving Repr, DecidableEq

/-- Translation of `urlsplit` with `allow_fragments=True`.  Returns `none`
where CPython raises or where this model abstains: authorities containing a
bracket (IPv6 validation) or non-ASCII characters (NFKC netloc check). -/
def urlsplitL (url0 : List Char) (defscheme : List Char) : Option USplit :=
  let url1 := cleanUrl url0
  let sp := match schemeSplitL url1 with
    | some p => p
    | none => (defscheme, url1)
  let scheme := sp.1
  let nl := if sp.2.take 2 = ['/', '/'] then splitNetlocL (sp.2.drop 2) else ([], sp.2)
  let netloc := nl.1
  if '[' ∈ netloc ∨ ']' ∈ netloc then none
  else if ¬ (∀ c ∈ netloc, c.toNat < 128) then none
  else
    let fr := match splitFirstL '#' nl.2 with
      | some p => p
      | none => (nl.2, [])
    let qu := match splitFirstL '?' fr.1 with
      | some p => p
      | none => (fr.1, [])
    some ⟨scheme, netloc, qu.1, qu.2, fr.2⟩

/-- Result record of `urlparse`. -/
structure UParse where
  scheme : List Char
  netloc : List Char
  path : List Char
  params : List Char
  query : List Char
  fragment : List Char
deriving Repr, DecidableEq

/-- Splits a list around its last occurrence of `/`: the part before the
slash and the part after it (which contains no slash). -/
def splitLastSlash (p : List Char) : Option (List Char × List Char) :=
  match splitFirstL '/' p.reverse with
  | none => none
  | some q => some (q.2.reverse, q.1.reverse)

/-- Translation of `_splitparams` (invoked only when the path contains a
semicolon): parameters start at the first `;` at or after the last `/`. -/
def splitParamsL (p : List Char) : List Char × List Char :=
  match splitLastSlash p with
  | some bq =>
    match splitFirstL ';' bq.2 with
    | some ab => (bq.1 ++ '/' :: ab.1, ab.2)
    | none => (p, [])
  | none =>
    match splitFirstL ';' p with
    | some ab => (ab.1, ab.2)
    | none => (p, [])

/-- Translation of `urlparse`: `urlsplit` plus the params split. -/
def urlparseL (url : List Char) (defscheme : List Char) : Option UParse :=
  (urlsplitL url defscheme).map (fun s =>
    if ';' ∈ s.path then
      let pp := splitParamsL s.path
      ⟨s.scheme, s.netloc, pp.1, pp.2, s.query, s.fragment⟩
    else ⟨s.scheme, s.netloc, s.path, [], s.query, s.fragment⟩)

/-- The authority step of `urlunsplit` (CPython 3.11): prepend `//netloc`
when an authority is present or implied by the scheme. -/
def addAuthority (scheme netloc path : List Char) : List Char :=
  if ¬ netloc = [] ∨ (¬ scheme = [] ∧ scheme ∈ uses_netlocL ∧ ¬ path.take 2 = ['/', '/']) then
    '/' :: '/' :: netloc ++ (if ¬ path = [] ∧ ¬ path.take 1 = ['/'] then '/' :: path else path)
  else path

/-- The scheme step of `urlunsplit`. -/
def addScheme (scheme u : List Char) : List Char :=
  if ¬ scheme = [] then scheme ++ ':' :: u else u

/-- The query step of `urlunsplit`. -/
def addQuery (query u : List Char) : List Char :=
  if ¬ query = [] then u ++ '?' :: query else u

/-- The fragment step of `urlunsplit`. -/
def addFragment (fragment u : List Char) : List Char :=
  if ¬ fragment = [] then u ++ '#' :: fragment else u

/-- Translation of `urlunsplit` (CPython 3.11), as the composition of its
four assembly steps. -/
def urlunsplitL (scheme netloc path query fragment : List Char) : List Char :=
  addFragment fragment (addQuery query (addScheme scheme (addAuthority scheme netloc path)))

/-- Translation of `urlunparse`. -/
def urlunparseL (u : UParse) : List Char :=
  urlunsplitL u.scheme u.netloc
    (if ¬ u.params = [] then u.path ++ ';' :: u.params else u.path) u.query u.fragment

/-- Python `str.split(sep)` with a character separator, at list level. -/
def splitOnCharL (sep : Char) : List Char → List (List Char)
  | [] => [[]]
  | c :: rest =>
    let r := splitOnCharL sep rest
    if c = sep then [] :: r
    else
      match r with
      | h :: t => (c :: h) :: t
      | [] => [[c]]

/-- The slice assignment `segments[1:-1] = filter(None, segments[1:-1])` of
`urljoin`: drop empty segments strictly between the first and the last. -/
def filterMiddle : List (List Char) → List (List Char)
  | [] => []
  | [x] => [x]
  | x :: xs =>
    match xs.getLast? with
    | none => [x]
    | some last => x :: ((xs.dropLast.filter (fun s => ¬ s = [])) ++ [last])

/-- The dot-segment resolution loop of `urljoin`. -/
def resolveSegs (acc : List (List Char)) : List (List Char) → List (List Char)
  | [] => acc
  | s :: rest =>
    if s = ['.', '.'] then resolveSegs acc.dropLast rest
    else if s = ['.'] then resolveSegs acc rest
    else resolveSegs (acc ++ [s]) rest

/-- Translation of `urljoin(base, url)` from `urllib.parse`. -/
def urljoinL (base url : List Char) : Option (List Char) :=
  if base = [] then some url
  else if url = [] then some base
  else
    match urlparseL base [] with
    | none => none
    | some b =>
      match urlparseL url b.scheme with
      | none => none
      | some u =>
        if ¬ u.scheme = b.scheme ∨ ¬ u.scheme ∈ uses_relativeL then some url
        else
          if u.scheme ∈ uses_netlocL ∧ ¬ u.netloc = [] then
            some (urlunparseL u)
          else
            let netloc := if u.scheme ∈ uses_netlocL then b.netloc else u.netloc
            if u.path = [] ∧ u.params = [] then
              let query := if u.query = [] then b.query else u.query
              some (urlunparseL ⟨u.scheme, netloc, b.path, b.params, query, u.fragment⟩)
            else
              let baseParts0 := splitOnCharL '/' b.path
              let baseParts := if ¬ baseParts0.getLast? = some [] then baseParts0.dropLast else baseParts0
              let segments := if u.path.take 1 = ['/'] then splitOnCharL '/' u.path
                else filterMiddle (baseParts ++ splitOnCharL '/' u.path)
              let resolved0 := resolveSegs [] segments
              let resolved := if segments.getLast? = some ['.'] ∨ segments.getLast? = some ['.', '.']
                then resolved0 ++ [[]] else resolved0
              let joined := List.intercalate ['/'] resolved
              let joined := if joined = [] then ['/'] else joined
              some (urlunparseL ⟨u.scheme, netloc, joined, u.params, u.query, u.fragment⟩)

/-- The fixed site base URL used by `extract_listing_cards`. -/
def baseUrlL : List Char := "https://www.daraz.com.bd/".data

/-- String-level `urljoin` against the fixed base, as used in the source. -/
def urljoinBase (url : String) : Option String :=
  (urljoinL baseUrlL url.data).map (fun l => ⟨l⟩)

/-- The full URL pipeline of `extract_listing_cards` line 161-163:
normalisation followed by the join against the fixed base. -/
def listingUrlOf (href : List Char) : Option (List Char) :=
  urljoinL baseUrlL (normalizeUrlL href)

/-! ## `_extract_background_image_url`

Translation of `re.search(r'url\((["\x27]?)(.+?)\1\)', style)`: find the
first position where `url(` is followed by an optional quote delimiter, a
lazy non-empty run of non-newline characters, the same delimiter and a
closing parenthesis; the run is the extracted URL. -/

/-- Lazy `(.+?)\1\)` matcher: grow the content one non-newline character at a
time and test for the delimiter followed by `)` after each growth step. -/
def bgContentGo (delim : List Char) : List Char → List Char → Option (List Char)
  | rest, acc =>
    if ¬ acc = [] ∧ listStartsWithL rest (delim ++ [')']) then some acc.reverse
    else
      match rest with
      | [] => none
      | c :: t => if c = '\n' then none else bgContentGo delim t (c :: acc)

/-- Matcher for the pattern after the literal `url(`: prefer a one-character
quote delimiter (greedy `?`), backtracking to the empty delimiter. -/
def bgAfterParen (l : List Char) : Option (List Char) :=
  match l with
  | [] => none
  | c :: rest =>
    if c = '"' ∨ c = Char.ofNat 39 then
      match bgContentGo [c] rest [] with
      | some content => some content
      | none => bgContentGo [] l []
    else bgContentGo [] l []

/-- The `re.search` scan: try every start position left to right. -/
def bgSearch : List Char → Option (List Char)
  | [] => none
  | l@(_ :: t) =>
    if listStartsWithL l "url(".data then
      match bgAfterParen (l.drop 4) with
      | some content => some content
      | none => bgSearch t
    else bgSearch t

/-- Source `_extract_background_image_url`: `None` for an empty style and for
a style where the pattern does not match. -/
def _extract_background_image_url (style : String) : Option String :=
  if style = "" then none
  else (bgSearch style.data).map (fun l => ⟨l⟩)

/-! ## Review extraction (`extract_page_items` inside `iterate_all_reviews`) -/

/-- The filled-star URL token `STAR_FILLED_TOKEN`. -/
def STAR_FILLED_TOKEN : String := "TB19ZvE"

/-- One `div.item` review node, as the extractor reads it.  `find_element`
failures (`NoSuchElementException`) are `none`; `find_elements` results are
lists.  `stale` marks a `StaleElementReferenceException` raised anywhere
while processing this item, which makes the extractor drop the item. -/
structure ReviewItem where
  stale : Bool
  starSrcs : List (Option String)
  dateText : Option String
  midSpans : List String
  contentText : Option String
  imageStyles : List (Option String)
  likesSpans : Option (List String)
deriving Repr, DecidableEq

/-- One extracted review record (the dict built at lines 398-407). -/
structure Review where
  reviewer : String
  rating_number : Nat
  review_text : String
  review_images : List String
  review_date : String
  review_like : Nat
deriving Repr, DecidableEq

/-- Star counting of lines 342-347: count star images whose `src` attribute
contains the filled-state token. -/
def countFilledStars (srcs : List (Option String)) : Nat :=
  (srcs.filter (fun s => strContains (get_attr s) STAR_FILLED_TOKEN)).length

/-- Like counting of lines 387-396: the last span inside the left-content
node, absent node or absent digits defaulting to zero. -/
def likesOf (spans : Option (List String)) : Nat :=
  match spans with
  | none => 0
  | some l =>
    match l.getLast? with
    | none => 0
    | some t => (_int_from_text (pyStrip t)).getD 0

/-- Image list of lines 374-384: parse each image node style, keep the
truthy results. -/
def reviewImagesOf (styles : List (Option String)) : List String :=
  styles.filterMap (fun st =>
    match _extract_background_image_url (get_attr st) with
    | some u => if u = "" then none else some u
    | none => none)

/-- Extraction of a single review item (body of the loop at lines 339-407). -/
def extractReviewItem (it : ReviewItem) : Review :=
  { reviewer := match it.midSpans with
      | [] => ""
      | s :: _ => pyStrip s
    rating_number := countFilledStars it.starSrcs
    review_text := textOrEmpty it.contentText
    review_images := reviewImagesOf it.imageStyles
    review_date := textOrEmpty it.dateText
    review_like := likesOf it.likesSpans }

/-- Source `extract_page_items`: every non-stale item yields a record, a
stale item is dropped and processing continues. -/
def extract_page_items (items : List ReviewItem) : List Review :=
  (items.filter (fun it => it.stale = false)).map extractReviewItem

/-! ## Review pagination (`iterate_all_reviews`) -/

/-- One iteration of the `while True` pagination loop, as decided by the
page driver: either the next-button click succeeds and a new page of items
is extracted, or one of the terminal events of lines 416-437 occurs. -/
inductive PageStep where
  /-- The next button is found, the click succeeds, the root is re-acquired
  and the given items are on the new page. -/
  | page (items : List ReviewItem) : PageStep
  /-- The next button is absent (`NoSuchElementException`, line 422). -/
  | noNext : PageStep
  /-- The click is intercepted (`ElementClickInterceptedException`). -/
  | clickIntercepted : PageStep
  /-- A stale reference is raised inside the click block. -/
  | staleRoot : PageStep
  /-- Re-acquiring `div.mod-reviews` times out (line 433). -/
  | rootTimeout : PageStep
deriving Repr, DecidableEq

/-- Whether a step breaks the pagination loop. -/
def PageStep.isTerminal : PageStep → Bool
  | .page _ => false
  | _ => true

/-- The pagination loop of lines 416-437: terminal steps break with the
accumulated reviews, page steps extend the accumulator.  An exhausted trace
also returns the accumulator (real traces end with a terminal step). -/
def paginationLoop (acc : List Review) : List PageStep → List Review
  | [] => acc
  | .page items :: rest => paginationLoop (acc ++ extract_page_items items) rest
  | .noNext :: _ => acc
  | .clickIntercepted :: _ => acc
  | .staleRoot :: _ => acc
  | .rootTimeout :: _ => acc

/-- Source `iterate_all_reviews`: `root` is the initial wait for
`div.mod-reviews` (`none` = timeout, returning no reviews), then the first
page is extracted and the pagination loop runs. -/
def iterate_all_reviews (root : Option (List ReviewItem)) (steps : List PageStep) : List Review :=
  match root with
  | none => []
  | some firstItems => paginationLoop (extract_page_items firstItems) steps

/-! ## Rating gate (`product_has_reviews`) -/

/-- Inputs read by `product_has_reviews`: the summary link text (`none` when
the 10-second wait times out) and the fallback badge text (`none` when
`span.qzqFw` is absent). -/
structure RatingProbe where
  summaryLink : Option String
  smallBadge : Option String
deriving Repr, DecidableEq

/-- Source `product_has_reviews` (lines 211-232). -/
def product_has_reviews (p : RatingProbe) : Bool × Option Nat :=
  match p.summaryLink with
  | some raw =>
    let txt := pyStrip raw
    if strContains txt "No Ratings" then (false, none)
    else (true, _int_from_text txt)
  | none =>
    match p.smallBadge with
    | some raw =>
      let total := _int_from_text (pyStrip raw)
      (decide (total.isSome = true ∧ 0 < total.getD 0), total)
    | none => (false, none)

/-! ## Product detail extraction (`extract_product_level_details`) -/

/-- Inputs read by `extract_product_level_details`: optional node texts,
the breadcrumb span texts, the gallery `src` attributes, the two score
spans and the first histogram rows (each row's percent-span text, `none`
when the span is missing). -/
structure DetailEnv where
  nameEl : Option String
  sellerEl : Option String
  psrEl : Option String
  crumbTexts : List String
  thumbSrcs : List (Option String)
  scoreAvg : Option String
  scoreMax : Option String
  histRows : List (Option String)
deriving Repr, DecidableEq

/-- The product detail record (dict of lines 306-314). -/
structure ProductDetail where
  product_name : String
  seller_name : String
  positive_seller_ratings : String
  product_categories : List String
  product_image_urls : List String
  overall_rating : String
  rating_summary_map : List (String × Nat)
deriving Repr, DecidableEq

/-- Rating histogram of lines 291-304: the first five rows pair with star
buckets 5 down to 1; a missing per-row count span defaults to zero. -/
def ratingSummaryOf (histRows : List (Option String)) : List (String × Nat) :=
  (List.zip [5, 4, 3, 2, 1] (histRows.take 5)).map (fun sr =>
    (toString sr.1 ++ "_star",
     match sr.2 with
     | some t => (_int_from_text (pyStrip t)).getD 0
     | none => 0))

/-- Source `extract_product_level_details` (lines 235-314). -/
def extract_product_level_details (env : DetailEnv) : ProductDetail :=
  { product_name := textOrEmpty env.nameEl
    seller_name := textOrEmpty env.sellerEl
    positive_seller_ratings := textOrEmpty env.psrEl
    product_categories := (env.crumbTexts.map pyStrip).filter (fun t => ¬ t = "")
    product_image_urls := env.thumbSrcs.filterMap (fun a =>
      let s := get_attr a
      if s = "" then none else some s)
    overall_rating := match env.scoreAvg, env.scoreMax with
      | some a, some m => pyStrip a ++ pyStrip m
      | _, _ => ""
    rating_summary_map := ratingSummaryOf env.histRows }

/-! ## Listing extraction (`extract_listing_cards`) -/

/-- One listing card node.  `anchorHref` is `none` when the detail anchor is
missing (the card is skipped), otherwise the raw `href` value; similarly for
the image, title and price nodes.  The sold and location nodes sit in inner
try blocks, so their absence only defaults the field.  `stale` marks a
`StaleElementReferenceException`, which also skips the card. -/
structure CardNode where
  stale : Bool
  anchorHref : Option String
  imgSrc : Option (Option String)
  titleText : Option String
  priceText : Option String
  soldText : Option String
  locText : Option String
deriving Repr

/-- One product summary record (dict of lines 193-202). -/
structure ProductSummary where
  product_url : String
  product_img : String
  product_price : Option Float
  total_sold : Option Nat
  seller_location : String
  listing_title : String
deriving Repr

/-- Per-card processing of lines 157-206.  A card whose required node is
missing or which goes stale is skipped; a `ValueError` inside `urljoin`
(modelled by `none`) propagates and aborts the whole extraction. -/
def extractCards : List CardNode → Option (List ProductSummary)
  | [] => some []
  | c :: rest =>
    if c.stale then extractCards rest
    else
      match c.anchorHref with
      | none => extractCards rest
      | some rawHref =>
        match urljoinL baseUrlL (normalizeUrlL (get_attr (some rawHref)).data) with
        | none => none
        | some urlChars =>
          match c.imgSrc, c.titleText, c.priceText with
          | some rawSrc, some rawTitle, some rawPrice =>
            (extractCards rest).map (fun tail =>
              { product_url := ⟨urlChars⟩
                product_img := get_attr rawSrc
                product_price := _price_to_number (pyStrip rawPrice)
                total_sold := match c.soldText with
                  | none => none
                  | some t => _int_from_text (pyStrip t)
                seller_location := match c.locText with
                  | none => ""
                  | some t => pyStrip t
                listing_title := pyStrip rawTitle } :: tail)
          | _, _, _ => extractCards rest

/-- Source `extract_listing_cards`: an empty sequence when the listing
container marker never appears, otherwise the per-card loop. -/
def extract_listing_cards (containerAppears : Bool) (cards : List CardNode) :
    Option (List ProductSummary) :=
  if containerAppears then extractCards cards else some []

/-! ## Navigation controller (`safe_get`) -/

/-- Outcome of one `driver.get` call: success, a `TimeoutException`
(caught, followed by best-effort `window.stop()`), or any other driver
error (uncaught, propagates). -/
inductive LoadOutcome where
  | ok : LoadOutcome
  | timeout : LoadOutcome
  | otherError : LoadOutcome
deriving Repr, DecidableEq

/-- One attempt of the retry loop: the load outcome and whether the
readiness selector appears within the wait timeout. -/
structure Attempt where
  load : LoadOutcome
  readyAppears : Bool
deriving Repr, DecidableEq

/-- Source `safe_get` (lines 77-103) over a trace of attempt outcomes, one
per loop iteration (the list length plays the role of `tries`).  A
non-timeout driver error escapes the function (`Except.error`). -/
def safe_get (readyCss : Option String) : List Attempt → Except Unit Bool
  | [] => .ok false
  | a :: rest =>
    match a.load with
    | .otherError => .error ()
    | _ =>
      match readyCss with
      | none => .ok true
      | some _ =>
        if a.readyAppears then .ok true
        else if rest = [] then .ok false
        else safe_get readyCss rest

/-! ## Output sink (`write_reviews_to_csv`) -/

/-- The fixed CSV column header of `scrape_range` (lines 456-476). -/
def csvHeaders : List String :=
  ["Reviewer username or name", "Rating (number)", "Review (text)",
   "Review image", "Review date (date time)",
   "Review like (number like on that review)", "Product name",
   "Product category", "Product price", "Total sold", "Total rating",
   "Overall rating", "Rating summery", "product image url", "seller name",
   "Positive Seller Ratings", "Seller location",
   "Data source (link of the page)", "Processing time (Current timestamp)"]

/-- Source `write_reviews_to_csv` as a file-state transformer: the file is
the sequence of CSV records already written; mode `"w"` (append = false)
truncates and writes the header row, mode `"a"` appends the data rows.
A data row is modelled as its cell list in header order, which is what
`csv.DictWriter` emits for the row dicts built in `scrape_range`. -/
def write_reviews_to_csv (file : List (List String)) (rows : List (List String))
    (header : List String) (append : Bool) : List (List String) :=
  if append then file ++ rows else [header] ++ rows

/-! ## Row assembly and per-product orchestration (`scrape_range`) -/

/-- One output row (the dict of lines 523-548), with the typed values the
source puts into the dict; numeric cells that fall back to the empty string
stay `Option` here. -/
structure OutputRow where
  reviewer : String
  rating_number : Nat
  review_text : String
  review_image : String
  review_date : String
  review_like : Nat
  product_name : String
  product_category : String
  product_price : Option Float
  total_sold : Option Nat
  total_rating : Option Nat
  overall_rating : String
  rating_summary : String
  product_image_url : String
  seller_name : String
  positive_seller_ratings : String
  seller_location : String
  data_source : String
  processing_time : String
deriving Repr

/-- Rendering of one rating-summary pair: `"5_star"` with count 3 becomes
`"5 star: 3"`. -/
def summaryPairText (kv : String × Nat) : String :=
  kv.1.replace "_star" " star" ++ ": " ++ toString kv.2

/-- Row assembly of lines 522-548: one review joined with its product
summary, product detail, total rating count and capture timestamp, with the
source's fallbacks from detail fields to summary fields. -/
def assembleRow (card : ProductSummary) (pd : ProductDetail) (totalRating : Option Nat)
    (timestamp : String) (rv : Review) : OutputRow :=
  { reviewer := rv.reviewer
    rating_number := rv.rating_number
    review_text := rv.review_text
    review_image := if rv.review_images = [] then ""
      else String.intercalate ", " rv.review_images
    review_date := rv.review_date
    review_like := rv.review_like
    product_name := if pd.product_name = "" then card.listing_title else pd.product_name
    product_category := String.intercalate ", " pd.product_categories
    product_price := card.product_price
    total_sold := card.total_sold
    total_rating := totalRating
    overall_rating := pd.overall_rating
    rating_summary := if pd.rating_summary_map = [] then ""
      else String.intercalate ", " (pd.rating_summary_map.map summaryPairText)
    product_image_url := if pd.product_image_urls = [] then card.product_img
      else String.intercalate ", " pd.product_image_urls
    seller_name := pd.seller_name
    positive_seller_ratings := pd.positive_seller_ratings
    seller_location := card.seller_location
    data_source := card.product_url
    processing_time := timestamp }

/-- Environment of one product iteration of `scrape_range` (lines 494-551):
the outcomes of the product page loads, the rating probe, the detail nodes,
the review root and pagination trace, and the capture timestamp. -/
structure ProductEnv where
  loadAttempts : List Attempt
  rating : RatingProbe
  details : DetailEnv
  reviewRoot : Option (List ReviewItem)
  reviewSteps : List PageStep
  timestamp : String

/-- One product iteration of `scrape_range` (lines 494-551), returning the
rows the product contributes to the sink and whether `iterate_all_reviews`
was invoked.  An uncaught driver error propagates as `Except.error`. -/
def processProduct (card : ProductSummary) (env : ProductEnv) :
    Except Unit (List OutputRow × Bool) :=
  if card.product_url = "" then .ok ([], false)
  else
    match safe_get (some "h1.pdp-mod-product-badge-title") env.loadAttempts with
    | .error e => .error e
    | .ok false => .ok ([], false)
    | .ok true =>
      let hr := product_has_reviews env.rating
      if hr.1 = false then .ok ([], false)
      else
        let pd := extract_product_level_details env.details
        let reviews := iterate_all_reviews env.reviewRoot env.reviewSteps
        if reviews = [] then .ok ([], true)
        else .ok (reviews.map (assembleRow card pd hr.2 env.timestamp), true)

/-- Rows a product run contributes to the sink. -/
def rowsOf : Except Unit (List OutputRow × Bool) → List OutputRow
  | .ok rb => rb.1
  | .error _ => []

/-- Whether a product run reached `iterate_all_reviews`. -/
def traverserInvoked : Except Unit (List OutputRow × Bool) → Bool
  | .ok rb => rb.2
  | .error _ => false

/-- The `if not product_url: continue` skip check of `scrape_range`
line 497. -/
def scrapeSkipsCard (s : ProductSummary) : Bool :=
  s.product_url = ""

/-- Whether a URL string carries an explicit scheme, in the sense of the
`urlsplit` scheme recognition. -/
def hasExplicitScheme (l : List Char) : Bool :=
  (schemeSplitL l).isSome

/-! ## Helper lemmas -/

theorem takeWhile_append_all {α : Type} (q : α → Bool) (l₁ l₂ : List α)
    (h : ∀ a ∈ l₁, q a = true) :
    (l₁ ++ l₂).takeWhile q = l₁ ++ l₂.takeWhile q := by
  induction l₁ with
  | nil => simp
  | cons a t ih =>
    have ha := h a (by simp)
    have ht := ih (fun b hb => h b (by simp [hb]))
    simp [List.takeWhile_cons, ha, ht]

theorem dropWhile_append_all {α : Type} (q : α → Bool) (l₁ l₂ : List α)
    (h : ∀ a ∈ l₁, q a = true) :
    (l₁ ++ l₂).dropWhile q = l₂.dropWhile q := by
  induction l₁ with
  | nil => simp
  | cons a t ih =>
    have ha := h a (by simp)
    have ht := ih (fun b hb => h b (by simp [hb]))
    simp [List.dropWhile_cons, ha, ht]

theorem splitFirstL_eq_none {sep : Char} {l : List Char} (h : sep ∉ l) :
    splitFirstL sep l = none := by
  induction l with
  | nil => rfl
  | cons c t ih =>
    have hc : ¬ c = sep := fun e => h (by simp [e])
    simp [splitFirstL, hc, ih (fun e => h (by simp [e]))]

theorem paginationLoop_page_steps (acc : List Review) (pages : List (List ReviewItem))
    (rest : List PageStep) :
    paginationLoop acc (pages.map PageStep.page ++ rest)
      = paginationLoop (acc ++ (pages.map extract_page_items).join) rest := by
  induction pages generalizing acc with
  | nil => simp
  | cons pg pgs ih => simp [paginationLoop, ih, List.append_assoc]

theorem paginationLoop_terminal (acc : List Review) (t : PageStep) (rest : List PageStep)
    (ht : t.isTerminal = true) : paginationLoop acc (t :: rest) = acc := by
  cases t with
  | page items => simp [PageStep.isTerminal] at ht
  | noNext => rfl
  | clickIntercepted => rfl
  | staleRoot => rfl
  | rootTimeout => rfl

/-! ## Claim C1 -/

/-- C1: every Review record produced by `extract_page_items` has a
non-negative `rating_number`, and under the precondition that every review
item holds at most five star-indicator nodes the count never exceeds 5 —
the rating is a tally of filled-star images, so it stays in `{0,…,5}`. -/
theorem star_count_within_bounds (items : List ReviewItem) :
    (∀ r ∈ extract_page_items items, 0 ≤ r.rating_number) ∧
    ((∀ it ∈ items, it.starSrcs.length ≤ 5) →
      ∀ r ∈ extract_page_items items, r.rating_number ≤ 5) := by
  constructor
  · intro r _
    exact Nat.zero_le _
  · intro hcap r hr
    simp only [extract_page_items, List.mem_map] at hr
    obtain ⟨it, hit, hext⟩ := hr
    have hmem : it ∈ items := List.mem_of_mem_filter hit
    have h1 : r.rating_number = countFilledStars it.starSrcs := by
      rw [← hext]
      rfl
    rw [h1]
    calc countFilledStars it.starSrcs ≤ it.starSrcs.length :=
          List.length_filter_le _ _
      _ ≤ 5 := hcap it hmem

/-- Witness for C1: a concrete one-item page with three star nodes, one of
them filled. -/
theorem star_count_within_bounds_witness :
    (∀ it ∈ ([⟨false, [some "https://x/TB19ZvEabc.png", some "https://x/other.png", none],
        none, [], none, [], none⟩] : List ReviewItem), it.starSrcs.length ≤ 5) ∧
    ∀ r ∈ extract_page_items [⟨false, [some "https://x/TB19ZvEabc.png",
        some "https://x/other.png", none], none, [], none, [], none⟩],
      r.rating_number ≤ 5 :=
  ⟨by decide, (star_count_within_bounds _).2 (by decide)⟩

/-! ## Claim C3 -/

/-- C3: the pagination loop of `iterate_all_reviews` terminates at the first
terminal step — an absent next control, an intercepted click, a stale root,
or a timed-out root re-acquisition — and returns exactly the reviews of the
first page plus those of every successfully visited page: a mid-pagination
failure never discards previously accumulated reviews. -/
theorem pagination_terminal_keeps_reviews (first : List ReviewItem)
    (pages : List (List ReviewItem)) (t : PageStep) (rest : List PageStep)
    (ht : t.isTerminal = true) :
    iterate_all_reviews (some first) (pages.map PageStep.page ++ t :: rest)
      = extract_page_items first ++ (pages.map extract_page_items).join := by
  show paginationLoop (extract_page_items first) (pages.map PageStep.page ++ t :: rest)
    = extract_page_items first ++ (pages.map extract_page_items).join
  rw [paginationLoop_page_steps, paginationLoop_terminal _ _ _ ht]

/-- Witness for C3: one successful extra page followed by a stale-root
failure keeps the reviews of both visited pages. -/
theorem pagination_terminal_keeps_reviews_witness :
    PageStep.isTerminal .staleRoot = true ∧
    iterate_all_reviews (some [⟨false, [], none, ["u1"], some "t1", [], none⟩])
        ([[⟨false, [], none, ["u2"], some "t2", [], none⟩]].map PageStep.page
          ++ .staleRoot :: [])
      = extract_page_items [⟨false, [], none, ["u1"], some "t1", [], none⟩]
        ++ ([[⟨false, [], none, ["u2"], some "t2", [], none⟩]].map extract_page_items).join :=
  ⟨rfl, pagination_terminal_keeps_reviews _ _ _ _ rfl⟩

/-! ## Claim C4 -/

/-- C4: on a page of non-stale review items every item yields a record, and
removing any single optional node of an item — body text, date, reviewer
spans, image list, or like-count node — only resets the corresponding field
to its default (empty string, empty list, or zero) while every other field
of the record is unchanged. -/
theorem missing_field_defaults (items : List ReviewItem) (it : ReviewItem)
    (hs : ∀ i ∈ items, i.stale = false) :
    (extract_page_items items).length = items.length
    ∧ extractReviewItem {it with contentText := none}
        = {extractReviewItem it with review_text := ""}
    ∧ extractReviewItem {it with dateText := none}
        = {extractReviewItem it with review_date := ""}
    ∧ extractReviewItem {it with midSpans := []}
        = {extractReviewItem it with reviewer := ""}
    ∧ extractReviewItem {it with imageStyles := []}
        = {extractReviewItem it with review_images := []}
    ∧ extractReviewItem {it with likesSpans := none}
        = {extractReviewItem it with review_like := 0} := by
  refine ⟨?_, ?_, ?_, ?_, ?_, ?_⟩
  · unfold extract_page_items
    rw [List.length_map, List.filter_eq_self.mpr]
    intro a ha
    simp [hs a ha]
  · simp [extractReviewItem, textOrEmpty]
  · simp [extractReviewItem, textOrEmpty]
  · simp [extractReviewItem]
  · simp [extractReviewItem, reviewImagesOf]
  · simp [extractReviewItem, likesOf]

/-- A fully populated sample review item. -/
def sampleItem : ReviewItem :=
  ⟨false, [some "https://x/TB19ZvEa.png"], some " 2 Jan 2024 ", [" buyer1 "],
   some " nice product ", [some "background-image: url(\"https://x/a.jpg\")"],
   some ["Helpful", " 3 "]⟩

/-- Ten sample items, the last one missing its body-text node. -/
def tenItems : List ReviewItem :=
  List.replicate 9 sampleItem ++ [{sampleItem with contentText := none}]

/-- Witness for C4: ten items with one missing body-text node still emit ten
records, and the affected record differs from the intact one only in its
empty text. -/
theorem missing_field_defaults_witness :
    (extract_page_items tenItems).length = 10
    ∧ extractReviewItem {sampleItem with contentText := none}
        = {extractReviewItem sampleItem with review_text := ""} :=
  ⟨((missing_field_defaults tenItems sampleItem (by decide)).1).trans (by decide),
   (missing_field_defaults tenItems sampleItem (by decide)).2.1⟩

/-! ## Claim C5 (corrected) -/

/-- C5 counterexample: with no readiness probe, `safe_get` returns `true`
even when the load attempt throws a `TimeoutException` — the claim's
"returns true exactly when the load attempt does not throw" fails. -/
theorem safe_get_true_after_timeout :
    safe_get none [{ load := .timeout, readyAppears := false }] = .ok true
    ∧ ¬ ({ load := .timeout, readyAppears := false } : Attempt).load = .ok :=
  ⟨rfl, by decide⟩

/-- C5 amended: with no readiness probe, `safe_get` returns `true`
immediately on the first attempt — with no content check — whenever the load
attempt does not throw a non-timeout driver error; a thrown
`TimeoutException` is caught and still counts as success, and only a
non-timeout driver error escapes. -/
theorem safe_get_no_probe_immediate (a : Attempt) (rest : List Attempt) :
    (¬ a.load = .otherError → safe_get none (a :: rest) = .ok true)
    ∧ (a.load = .otherError → safe_get none (a :: rest) = .error ()) := by
  obtain ⟨load, ready⟩ := a
  cases load <;> simp [safe_get]

/-- Witness for C5: a clean first load returns success at once. -/
theorem safe_get_no_probe_immediate_witness :
    safe_get none [{ load := .ok, readyAppears := false }] = .ok true :=
  (safe_get_no_probe_immediate { load := .ok, readyAppears := false } []).1 (by decide)

/-! ## Claim C7 (corrected) -/

/-- C7 counterexample: when the primary summary link times out and the
fallback badge reads `"(0)"`, `product_has_reviews` returns the boolean
`false` together with a present count `some 0` — the claim's "whenever the
boolean is false the count component is absent" fails. -/
theorem rating_gate_false_with_count :
    (product_has_reviews ⟨none, some "(0)"⟩).1 = false
    ∧ ¬ (product_has_reviews ⟨none, some "(0)"⟩).2 = none := by
  constructor
  · rfl
  · intro h
    simp [product_has_reviews, pyStrip, pyStripL, _int_from_text, intFromTextL] at h

/-- C7 amended: `product_has_reviews` returns `(false, absent)` when the
primary link text contains the `"No Ratings"` marker, `(true, n?)` with the
first parsed integer otherwise; when the primary link is absent it falls
back to the badge, returning `(false, absent)` when the badge is also
absent, and `(positive?, parsed)` on a badge text — so whenever the boolean
is false the count component is absent or a present zero parsed from the
badge. -/
theorem product_has_reviews_cases (p : RatingProbe) :
    (∀ t, p.summaryLink = some t → strContains (pyStrip t) "No Ratings" = true →
      product_has_reviews p = (false, none))
    ∧ (∀ t, p.summaryLink = some t → strContains (pyStrip t) "No Ratings" = false →
      product_has_reviews p = (true, _int_from_text (pyStrip t)))
    ∧ (p.summaryLink = none → p.smallBadge = none → product_has_reviews p = (false, none))
    ∧ (∀ b, p.summaryLink = none → p.smallBadge = some b →
      product_has_reviews p =
        (match _int_from_text (pyStrip b) with
         | some n => (decide (0 < n), some n)
         | none => (false, none)))
    ∧ ((product_has_reviews p).1 = false →
      (product_has_reviews p).2 = none ∨ (product_has_reviews p).2 = some 0) := by
  obtain ⟨link, badge⟩ := p
  refine ⟨?_, ?_, ?_, ?_, ?_⟩
  · intro t ht hmark
    cases link with
    | none => exact absurd ht (by simp)
    | some raw =>
      obtain rfl : raw = t := by injection ht
      simp [product_has_reviews, hmark]
  · intro t ht hmark
    cases link with
    | none => exact absurd ht (by simp)
    | some raw =>
      obtain rfl : raw = t := by injection ht
      simp [product_has_reviews, hmark]
  · intro hl hb
    subst hl
    subst hb
    rfl
  · intro b hl hb
    subst hl
    subst hb
    simp only [product_has_reviews]
    cases hn : _int_from_text (pyStrip b) with
    | none => simp [hn]
    | some n => simp [hn]
  · intro hfalse
    cases link with
    | some raw =>
      by_cases hmark : strContains (pyStrip raw) "No Ratings" = true
      · simp [product_has_reviews, hmark]
      · simp [product_has_reviews, eq_false_of_ne_true hmark] at hfalse
    | none =>
      cases badge with
      | none => simp [product_has_reviews]
      | some raw =>
        cases hn : _int_from_text (pyStrip raw) with
        | none => simp [product_has_reviews, hn]
        | some n =>
          simp only [product_has_reviews, hn] at hfalse ⊢
          right
          cases n with
          | zero => rfl
          | succ m => simp at hfalse

/-- Witness for C7: a primary link with the marker yields `(false, none)`. -/
theorem product_has_reviews_cases_witness :
    product_has_reviews ⟨some " No Ratings yet ", none⟩ = (false, none) :=
  (product_has_reviews_cases ⟨some " No Ratings yet ", none⟩).1 " No Ratings yet " rfl
    (by decide)

/-! ## Claim C8 -/

/-- C8: one run initialises the sink with a single header row and each
subsequent write appends its data rows in call order — after writing rows
for product A and then rows for product B, the file is exactly the header
followed by A's rows then B's rows, and (as long as no data row equals the
header row) the header occurs exactly once. -/
theorem sink_single_header_appends (init rows1 rows2 : List (List String))
    (h1 : csvHeaders ∉ rows1) (h2 : csvHeaders ∉ rows2) :
    write_reviews_to_csv
        (write_reviews_to_csv
          (write_reviews_to_csv init [] csvHeaders false) rows1 csvHeaders true)
        rows2 csvHeaders true
      = csvHeaders :: (rows1 ++ rows2)
    ∧ (write_reviews_to_csv
        (write_reviews_to_csv
          (write_reviews_to_csv init [] csvHeaders false) rows1 csvHeaders true)
        rows2 csvHeaders true).count csvHeaders = 1 := by
  have hfile : write_reviews_to_csv
      (write_reviews_to_csv
        (write_reviews_to_csv init [] csvHeaders false) rows1 csvHeaders true)
      rows2 csvHeaders true = csvHeaders :: (rows1 ++ rows2) := by
    simp [write_reviews_to_csv]
  refine ⟨hfile, ?_⟩
  rw [hfile, List.count_cons_self, List.count_eq_zero_of_not_mem]
  simp [h1, h2]

/-- Witness for C8: three rows for product A, then two rows for product B. -/
theorem sink_single_header_appends_witness :
    write_reviews_to_csv
        (write_reviews_to_csv
          (write_reviews_to_csv [["stale"]] [] csvHeaders false)
          [["a1"], ["a2"], ["a3"]] csvHeaders true)
        [["b1"], ["b2"]] csvHeaders true
      = csvHeaders :: ([["a1"], ["a2"], ["a3"]] ++ [["b1"], ["b2"]])
    ∧ (write_reviews_to_csv
        (write_reviews_to_csv
          (write_reviews_to_csv [["stale"]] [] csvHeaders false)
          [["a1"], ["a2"], ["a3"]] csvHeaders true)
        [["b1"], ["b2"]] csvHeaders true).count csvHeaders = 1 :=
  sink_single_header_appends [["stale"]] [["a1"], ["a2"], ["a3"]] [["b1"], ["b2"]]
    (by decide) (by decide)

/-! ## Claim C2 -/

/-- C2: whenever `product_has_reviews` reports no ratings for the product
environment, the product iteration of `scrape_range` never reaches
`iterate_all_reviews` and contributes no output rows to the sink. -/
theorem rating_gate_blocks_reviews (card : ProductSummary) (env : ProductEnv)
    (h : (product_has_reviews env.rating).1 = false) :
    rowsOf (processProduct card env) = []
    ∧ traverserInvoked (processProduct card env) = false := by
  unfold processProduct
  by_cases hu : card.product_url = ""
  · simp [hu, rowsOf, traverserInvoked]
  · rw [if_neg hu]
    cases hsg : safe_get (some "h1.pdp-mod-product-badge-title") env.loadAttempts with
    | error e => exact ⟨rfl, rfl⟩
    | ok b =>
      cases b with
      | false => exact ⟨rfl, rfl⟩
      | true => simp [h, rowsOf, traverserInvoked]

/-- A product environment whose rating probe reads a `"No Ratings"` link. -/
def noRatingsEnv : ProductEnv :=
  { loadAttempts := [{ load := .ok, readyAppears := true }]
    rating := ⟨some "No Ratings", none⟩
    details := ⟨some "P", none, none, [], [], none, none, []⟩
    reviewRoot := some [sampleItem]
    reviewSteps := [.noNext]
    timestamp := "2026-01-01T00:00:00" }

/-- Witness for C2: a concrete gated product yields no rows and never runs
the traverser. -/
theorem rating_gate_blocks_reviews_witness :
    rowsOf (processProduct ⟨"https://www.daraz.com.bd/p", "", none, none, "", "T"⟩ noRatingsEnv) = []
    ∧ traverserInvoked (processProduct ⟨"https://www.daraz.com.bd/p", "", none, none, "", "T"⟩ noRatingsEnv) = false :=
  rating_gate_blocks_reviews ⟨"https://www.daraz.com.bd/p", "", none, none, "", "T"⟩
    noRatingsEnv (by decide)

/-! ## URL lemmas for C9 and C10 -/

theorem addScheme_ne_nil (scheme u : List Char) (hs : ¬ scheme = []) :
    ¬ addScheme scheme u = [] := by
  unfold addScheme
  rw [if_pos hs]
  simp

theorem addQuery_ne_nil (query u : List Char) (hu : ¬ u = []) :
    ¬ addQuery query u = [] := by
  unfold addQuery
  split_ifs
  all_goals first | exact hu | simp

theorem addFragment_ne_nil (fragment u : List Char) (hu : ¬ u = []) :
    ¬ addFragment fragment u = [] := by
  unfold addFragment
  split_ifs
  all_goals first | exact hu | simp

theorem urlunsplitL_ne_nil (scheme netloc path query fragment : List Char)
    (hs : ¬ scheme = []) :
    ¬ urlunsplitL scheme netloc path query fragment = [] :=
  addFragment_ne_nil _ _ (addQuery_ne_nil _ _ (addScheme_ne_nil _ _ hs))

theorem urlunparseL_ne_nil (u : UParse) (hs : ¬ u.scheme = []) :
    ¬ urlunparseL u = [] := by
  unfold urlunparseL
  exact urlunsplitL_ne_nil _ _ _ _ _ hs

/-- Parse of the fixed base URL. -/
theorem urlparse_base :
    urlparseL baseUrlL [] =
      some ⟨"https".data, "www.daraz.com.bd".data, ['/'], [], [], []⟩ := by
  decide

theorem urljoinL_base_ne_nil (u r : List Char) (h : urljoinL baseUrlL u = some r) :
    ¬ r = [] := by
  unfold urljoinL at h
  rw [if_neg (by decide : ¬ baseUrlL = [])] at h
  by_cases hu : u = []
  · rw [if_pos hu] at h
    injection h with h
    rw [← h]
    decide
  · rw [if_neg hu, urlparse_base] at h
    simp only [] at h
    cases hup : urlparseL u
        (⟨"https".data, "www.daraz.com.bd".data, ['/'], [], [], []⟩ : UParse).scheme with
    | none => rw [hup] at h; simp at h
    | some up =>
      rw [hup] at h
      simp only [] at h
      split_ifs at h with h1 h2 h3 h4 h5 h6 h7 h8 h9 h10 h11 h12
      all_goals injection h with h
      all_goals rw [← h]
      all_goals first
        | exact hu
        | (apply urlunparseL_ne_nil
           push_neg at h1
           show ¬ up.scheme = []
           rw [h1.1]
           decide)

/-! ## Claim C10 -/

theorem extractCards_urls (cards : List CardNode) (summaries : List ProductSummary)
    (h : extractCards cards = some summaries) :
    ∀ s ∈ summaries, ¬ s.product_url.data = [] := by
  induction cards generalizing summaries with
  | nil =>
    unfold extractCards at h
    injection h with h
    rw [← h]
    intro s hs
    simp at hs
  | cons c rest ih =>
    unfold extractCards at h
    by_cases hst : c.stale = true
    · rw [if_pos hst] at h
      exact ih summaries h
    · rw [if_neg hst] at h
      cases hanchor : c.anchorHref with
      | none => rw [hanchor] at h; exact ih summaries h
      | some rawHref =>
        rw [hanchor] at h
        simp only [] at h
        cases hjoin : urljoinL baseUrlL (normalizeUrlL (get_attr (some rawHref)).data) with
        | none => rw [hjoin] at h; simp at h
        | some urlChars =>
          rw [hjoin] at h
          simp only [] at h
          cases himg : c.imgSrc with
          | none =>
            rw [himg] at h
            cases c.titleText <;> cases c.priceText <;> exact ih summaries h
          | some rawSrc =>
            rw [himg] at h
            cases htitle : c.titleText with
            | none =>
              rw [htitle] at h
              cases c.priceText <;> exact ih summaries h
            | some rawTitle =>
              rw [htitle] at h
              cases hprice : c.priceText with
              | none => rw [hprice] at h; exact ih summaries h
              | some rawPrice =>
                rw [hprice] at h
                simp only [] at h
                cases htail : extractCards rest with
                | none => rw [htail] at h; simp at h
                | some tail =>
                  rw [htail] at h
                  simp only [Option.map_some'] at h
                  injection h with h
                  intro s hs
                  rw [← h] at hs
                  rcases List.mem_cons.mp hs with hhead | htl
                  · rw [hhead]
                    exact urljoinL_base_ne_nil _ _ hjoin
                  · exact ih tail htail s htl

/-- C10: every ProductSummary produced by `extract_listing_cards` has a
non-empty `product_url` — the href, even when empty, resolves through
`urljoin` against the fixed base to a non-empty URL, so the orchestrator's
skip-on-empty-`product_url` check never fires on extractor output — and an
empty href resolves to the site base URL itself. -/
theorem listing_product_urls_nonempty :
    (∀ (container : Bool) (cards : List CardNode) (summaries : List ProductSummary),
      extract_listing_cards container cards = some summaries →
      ∀ s ∈ summaries, ¬ s.product_url = "" ∧ scrapeSkipsCard s = false)
    ∧ urljoinL baseUrlL (normalizeUrlL "".data) = some baseUrlL := by
  constructor
  · intro container cards summaries h s hs
    have hdata : ¬ s.product_url.data = [] := by
      unfold extract_listing_cards at h
      by_cases hc : container = true
      · rw [if_pos hc] at h
        exact extractCards_urls cards summaries h s hs
      · rw [if_neg hc] at h
        injection h with h
        exact absurd hs (by rw [← h]; simp)
    have hne : ¬ s.product_url = "" := by
      intro he
      apply hdata
      rw [he]
    exact ⟨hne, by simp [scrapeSkipsCard, hne]⟩
  · decide

/-- A sample listing card whose anchor has an empty href. -/
def sampleCard : CardNode :=
  ⟨false, some "", some (some " i.png "), some " Title ", some "n/a", none, none⟩

/-- The summary `extract_listing_cards` produces for `sampleCard`: the empty
href resolves to the site base URL. -/
def sampleSummary : ProductSummary :=
  ⟨"https://www.daraz.com.bd/", "i.png", none, none, "", "Title"⟩

/-- Witness for C10: the summary of a card with an empty href points at the
site base and is not skipped. -/
theorem listing_product_urls_nonempty_witness :
    ¬ sampleSummary.product_url = "" ∧ scrapeSkipsCard sampleSummary = false :=
  listing_product_urls_nonempty.1 true [sampleCard] [sampleSummary] rfl
    sampleSummary (by simp)

/-! ## Claim C6 (code bug) -/

/-- C6: evaluation of `extract_product_level_details` on a breadcrumb list
whose trailing entry duplicates the product name.  The source comment at
line 262 says "skip last = product name", but the comprehension at line 266
keeps every non-empty trimmed crumb, so the trailing product-name entry is
retained in the categories, contradicting the claim that the last
breadcrumb item is skipped. -/
theorem categories_keep_trailing_crumb :
    (extract_product_level_details
        ⟨some "Cool Phone X", none, none, ["Electronics", "Mobiles", "Cool Phone X"],
         [], none, none, []⟩).product_name = "Cool Phone X"
    ∧ (extract_product_level_details
        ⟨some "Cool Phone X", none, none, ["Electronics", "Mobiles", "Cool Phone X"],
         [], none, none, []⟩).product_categories
      = ["Electronics", "Mobiles", "Cool Phone X"] := by
  constructor
  · rfl
  · rfl

/-! ## Claim C9 (corrected) -/

/-- Characters allowed in a canonical authority component. -/
def hostChar (c : Char) : Prop :=
  ¬ c = '/' ∧ ¬ c = '?' ∧ ¬ c = '#' ∧ ¬ c = '[' ∧ ¬ c = ']'
  ∧ ¬ c = '\t' ∧ ¬ c = '\r' ∧ ¬ c = '\n' ∧ c.toNat < 128

/-- Characters allowed in a canonical plain path component. -/
def plainPathChar (c : Char) : Prop :=
  ¬ c = ';' ∧ ¬ c = '?' ∧ ¬ c = '#' ∧ ¬ c = '\t' ∧ ¬ c = '\r' ∧ ¬ c = '\n'

instance hostCharDec (c : Char) : Decidable (hostChar c) := by
  unfold hostChar
  infer_instance

instance plainPathCharDec (c : Char) : Decidable (plainPathChar c) := by
  unfold plainPathChar
  infer_instance

theorem cleanUrl_https (t : List Char)
    (ht : ∀ c ∈ t, ¬ c = '\t' ∧ ¬ c = '\r' ∧ ¬ c = '\n') :
    cleanUrl ('h' :: 't' :: 't' :: 'p' :: 's' :: ':' :: '/' :: '/' :: t)
      = 'h' :: 't' :: 't' :: 'p' :: 's' :: ':' :: '/' :: '/' :: t := by
  unfold cleanUrl
  rw [List.dropWhile_cons, if_neg (by decide)]
  apply List.filter_eq_self.mpr
  intro a ha
  rcases List.mem_cons.mp ha with rfl | ha
  · decide
  rcases List.mem_cons.mp ha with rfl | ha
  · decide
  rcases List.mem_cons.mp ha with rfl | ha
  · decide
  rcases List.mem_cons.mp ha with rfl | ha
  · decide
  rcases List.mem_cons.mp ha with rfl | ha
  · decide
  rcases List.mem_cons.mp ha with rfl | ha
  · decide
  rcases List.mem_cons.mp ha with rfl | ha
  · decide
  rcases List.mem_cons.mp ha with rfl | ha
  · decide
  have := ht a ha
  simp [this.1, this.2.1, this.2.2]

theorem schemeSplit_https (t : List Char) :
    schemeSplitL ('h' :: 't' :: 't' :: 'p' :: 's' :: ':' :: t)
      = some ("https".data, t) := rfl

theorem splitNetloc_canonical (h p : List Char)
    (hh : ∀ c ∈ h, hostChar c)
    (hp0 : p = [] ∨ p.take 1 = ['/']) :
    splitNetlocL (h ++ p) = (h, p) := by
  have hpred : ∀ a ∈ h, (fun c => decide (¬ netlocDelim c = true)) a = true := by
    intro a ha
    have := hh a ha
    simp [netlocDelim, this.1, this.2.1, this.2.2.1]
  unfold splitNetlocL
  rw [takeWhile_append_all _ h p hpred, dropWhile_append_all _ h p hpred]
  rcases hp0 with rfl | hp1
  · simp
  · cases p with
    | nil => simp
    | cons c cs =>
      have hc : c = '/' := by
        have := congrArg (fun l => l.headI) hp1
        simpa using this
      subst hc
      rw [List.takeWhile_cons, if_neg (by decide), List.dropWhile_cons, if_neg (by decide)]
      simp

theorem urlsplit_canonical (h p : List Char)
    (hh : ∀ c ∈ h, hostChar c)
    (hp0 : p = [] ∨ p.take 1 = ['/'])
    (hpc : ∀ c ∈ p, plainPathChar c) :
    urlsplitL ("https://".data ++ (h ++ p)) "https".data
      = some ⟨"https".data, h, p, [], []⟩ := by
  have hlit : "https://".data ++ (h ++ p)
      = 'h' :: 't' :: 't' :: 'p' :: 's' :: ':' :: '/' :: '/' :: (h ++ p) := rfl
  rw [hlit]
  have htail : ∀ c ∈ h ++ p, ¬ c = '\t' ∧ ¬ c = '\r' ∧ ¬ c = '\n' := by
    intro c hc
    rcases List.mem_append.mp hc with hch | hcp
    · have := hh c hch
      exact ⟨this.2.2.2.2.2.1, this.2.2.2.2.2.2.1, this.2.2.2.2.2.2.2.1⟩
    · have := hpc c hcp
      exact ⟨this.2.2.2.1, this.2.2.2.2.1, this.2.2.2.2.2⟩
  unfold urlsplitL
  rw [cleanUrl_https (h ++ p) htail]
  simp only []
  rw [show schemeSplitL ('h' :: 't' :: 't' :: 'p' :: 's' :: ':' :: '/' :: '/' :: (h ++ p))
      = some ("https".data, '/' :: '/' :: (h ++ p)) from rfl]
  simp only []
  rw [show List.take 2 ('/' :: '/' :: (h ++ p)) = ['/', '/'] from rfl, if_pos rfl]
  rw [show List.drop 2 ('/' :: '/' :: (h ++ p)) = h ++ p from rfl]
  rw [splitNetloc_canonical h p hh hp0]
  simp only []
  rw [if_neg ?hbr, if_neg ?hascii]
  case hbr =>
    intro hmem
    rcases hmem with hl | hr
    · exact (hh _ hl).2.2.2.1 rfl
    · exact (hh _ hr).2.2.2.2.1 rfl
  case hascii =>
    intro hcontra
    exact hcontra (fun c hc => (hh c hc).2.2.2.2.2.2.2.2)
  rw [splitFirstL_eq_none (fun hmem => (hpc _ hmem).2.2.1 rfl)]
  simp only []
  rw [splitFirstL_eq_none (fun hmem => (hpc _ hmem).2.1 rfl)]

theorem urlparse_canonical (h p : List Char)
    (hh : ∀ c ∈ h, hostChar c)
    (hp0 : p = [] ∨ p.take 1 = ['/'])
    (hpc : ∀ c ∈ p, plainPathChar c) :
    urlparseL ("https://".data ++ (h ++ p)) "https".data
      = some ⟨"https".data, h, p, [], [], []⟩ := by
  unfold urlparseL
  rw [urlsplit_canonical h p hh hp0 hpc]
  rw [Option.map_some']
  rw [if_neg (fun hmem => (hpc _ hmem).1 rfl)]

theorem urljoinL_https_netloc (u : List Char) (up : UParse)
    (hu : ¬ u = [])
    (hparse : urlparseL u "https".data = some up)
    (hscheme : up.scheme = "https".data)
    (hnetloc : ¬ up.netloc = []) :
    urljoinL baseUrlL u = some (urlunparseL up) := by
  unfold urljoinL
  rw [if_neg (by decide : ¬ baseUrlL = []), if_neg hu, urlparse_base]
  simp only []
  rw [hparse]
  simp only []
  have h1 : ¬ (¬ up.scheme = "https".data ∨ ¬ up.scheme ∈ uses_relativeL) := by
    intro hc
    rcases hc with hc | hc
    · exact hc hscheme
    · rw [hscheme] at hc
      exact hc (by decide)
  rw [if_neg h1]
  have h2 : up.scheme ∈ uses_netlocL ∧ ¬ up.netloc = [] := by
    refine ⟨?_, hnetloc⟩
    rw [hscheme]
    decide
  rw [if_pos h2]

theorem nonhttps_scheme_unchanged (u : List Char) (parts : UParse)
    (hu : ¬ u = []) (hpr : ¬ u.take 2 = ['/', '/'])
    (hparse : urlparseL u "https".data = some parts)
    (hsch : ¬ parts.scheme = "https".data) :
    urljoinL baseUrlL (normalizeUrlL u) = some u := by
  have hnorm : normalizeUrlL u = u := by
    unfold normalizeUrlL
    rw [if_neg hu, if_neg hpr]
  rw [hnorm]
  unfold urljoinL
  rw [if_neg (by decide : ¬ baseUrlL = []), if_neg hu, urlparse_base]
  simp only []
  rw [hparse]
  simp only []
  rw [if_pos (Or.inl hsch)]

theorem addQuery_nil (u : List Char) : addQuery [] u = u := by
  unfold addQuery
  rw [if_neg (not_not_intro rfl)]

theorem addFragment_nil (u : List Char) : addFragment [] u = u := by
  unfold addFragment
  rw [if_neg (not_not_intro rfl)]

theorem canonical_https_unchanged (h p : List Char)
    (hne : ¬ h = [])
    (hh : ∀ c ∈ h, hostChar c)
    (hp0 : p = [] ∨ p.take 1 = ['/'])
    (hpc : ∀ c ∈ p, plainPathChar c) :
    urljoinL baseUrlL (normalizeUrlL ("https://".data ++ (h ++ p)))
      = some ("https://".data ++ (h ++ p)) := by
  have hlit : "https://".data ++ (h ++ p)
      = 'h' :: 't' :: 't' :: 'p' :: 's' :: ':' :: '/' :: '/' :: (h ++ p) := rfl
  have hune : ¬ "https://".data ++ (h ++ p) = [] := by
    rw [hlit]
    simp
  have hnorm : normalizeUrlL ("https://".data ++ (h ++ p)) = "https://".data ++ (h ++ p) := by
    unfold normalizeUrlL
    rw [if_neg hune, if_neg]
    rw [hlit]
    simp
  rw [hnorm]
  rw [urljoinL_https_netloc ("https://".data ++ (h ++ p)) ⟨"https".data, h, p, [], [], []⟩
    hune (urlparse_canonical h p hh hp0 hpc) rfl hne]
  have hauth : addAuthority "https".data h p = '/' :: '/' :: h ++ p := by
    have hps : ¬ (¬ p = [] ∧ ¬ p.take 1 = ['/']) := by
      intro hcontra
      rcases hp0 with rfl | hp1
      · exact hcontra.1 rfl
      · exact hcontra.2 hp1
    unfold addAuthority
    rw [if_pos (Or.inl hne), if_neg hps]
  have hunparse : urlunparseL ⟨"https".data, h, p, [], [], []⟩
      = "https://".data ++ (h ++ p) := by
    show urlunsplitL "https".data h
        (if ¬ ([] : List Char) = [] then p ++ ';' :: [] else p) [] []
      = "https://".data ++ (h ++ p)
    rw [if_neg (not_not_intro rfl)]
    show addFragment [] (addQuery [] (addScheme "https".data (addAuthority "https".data h p)))
      = "https://".data ++ (h ++ p)
    rw [hauth, addQuery_nil, addFragment_nil]
    unfold addScheme
    rw [if_pos (by decide)]
    rfl
  rw [hunparse]

/-- C9 counterexample: `"https:foo"` has an explicit scheme and is not
protocol-relative, yet `normalize_url` followed by the join against the
fixed base rewrites it to `"https://www.daraz.com.bd/foo"` — `urljoin`
treats an authority-less `https` URL as relative to the base. -/
theorem url_join_rewrites_schemeonly_url :
    hasExplicitScheme "https:foo".data = true
    ∧ normalizeUrlL "https:foo".data = "https:foo".data
    ∧ urljoinL baseUrlL (normalizeUrlL "https:foo".data)
        = some "https://www.daraz.com.bd/foo".data
    ∧ ¬ urljoinL baseUrlL (normalizeUrlL "https:foo".data)
        = some "https:foo".data := by
  refine ⟨by decide, by decide, by decide, by decide⟩

/-- C9 amended: the URL pipeline of `extract_listing_cards` returns an
absolute URL unchanged in the two canonical situations — (a) any non-empty,
non-protocol-relative URL whose parsed scheme differs from `https` is
returned verbatim by the early-return branch of `urljoin`; (b) any URL
written canonically as `https://<host><path>` — lowercase scheme, non-empty
bracket-free ASCII host without `/?#`, and a path that is empty or starts
with `/` and contains no `;?#` — round-trips through parse and unparse
unchanged.  (An `https` URL without an authority, such as `"https:foo"`, is
instead resolved against the base, which is what the counterexample
exhibits.) -/
theorem url_normalization_idempotent_cases :
    (∀ (u : List Char) (parts : UParse), ¬ u = [] → ¬ u.take 2 = ['/', '/'] →
      urlparseL u "https".data = some parts → ¬ parts.scheme = "https".data →
      urljoinL baseUrlL (normalizeUrlL u) = some u)
    ∧ (∀ host path : List Char, ¬ host = [] →
      (∀ c ∈ host, hostChar c) → (path = [] ∨ path.take 1 = ['/']) →
      (∀ c ∈ path, plainPathChar c) →
      urljoinL baseUrlL (normalizeUrlL ("https://".data ++ (host ++ path)))
        = some ("https://".data ++ (host ++ path))) :=
  ⟨nonhttps_scheme_unchanged, canonical_https_unchanged⟩

/-- Witness for C9: an `ftp` URL and a canonical `https` URL both pass
through the pipeline unchanged. -/
theorem url_normalization_idempotent_cases_witness :
    urljoinL baseUrlL (normalizeUrlL "ftp://files.example.com/a.zip".data)
      = some "ftp://files.example.com/a.zip".data
    ∧ urljoinL baseUrlL
        (normalizeUrlL ("https://".data ++ ("www.daraz.com.bd".data ++ "/catalog".data)))
      = some ("https://".data ++ ("www.daraz.com.bd".data ++ "/catalog".data)) :=
  ⟨url_normalization_idempotent_cases.1 "ftp://files.example.com/a.zip".data
      ⟨"ftp".data, "files.example.com".data, "/a.zip".data, [], [], []⟩
      (by decide) (by decide) (by decide) (by decide),
   url_normalization_idempotent_cases.2 "www.daraz.com.bd".data "/catalog".data
      (by decide) (by decide) (by decide) (by decide)⟩

end Daraz
